import Mathlib

/-!
Verification of the pod-toolkit / etsy-helpers CLI: a shallow embedding of
its validation rules, sales-channel services (Etsy, Website), Printful
provider, and the add-product command orchestration, together with theorems
checking the documented behaviour against this embedding.

JavaScript strings are modelled as Lean `String`, JS numbers as `ℚ` (prices)
and `ℤ` (quantities), possibly-undefined values as `Option`, and template
literals as explicit string appends using a decimal rendering function.
-/

/-- Model of the JavaScript `String.prototype.trim`: drop whitespace
characters from both ends of the character list. -/
def strTrim (s : String) : String :=
  ⟨((s.data.dropWhile Char.isWhitespace).reverse.dropWhile Char.isWhitespace).reverse⟩

/-- Character for one digit in bases up to 36, as JavaScript renders numbers:
0-9 then lowercase a-z. -/
def digitCh (d : Nat) : Char :=
  if d < 10 then Char.ofNat (48 + d) else Char.ofNat (87 + d)

/-- Little-endian digits of `n` in base `b`, computed with explicit fuel so
the kernel can evaluate it; agrees with `Nat.digits` when `fuel ≥ n`. -/
def revDigits (b : Nat) : Nat → Nat → List Nat
  | 0, _ => []
  | _ + 1, 0 => []
  | fuel + 1, n + 1 => ((n + 1) % b) :: revDigits b fuel ((n + 1) / b)

/-- Digit string of a natural number in base `b`, most significant digit
first, as JavaScript `Number.prototype.toString(b)` renders non-negative
integers. -/
def natToBaseStr (b n : Nat) : String :=
  if n = 0 then "0" else ⟨((revDigits b n n).map digitCh).reverse⟩

/-- Decimal rendering of a natural number, as a JS template literal does. -/
def natDec (n : Nat) : String := natToBaseStr 10 n

theorem revDigits_eq_digits {b : Nat} (hb : 2 ≤ b) :
    ∀ fuel n, n ≤ fuel → revDigits b fuel n = Nat.digits b n := by
  intro fuel
  induction fuel with
  | zero => intro n hn; interval_cases n; simp [revDigits]
  | succ f ih =>
    intro n hn
    match n with
    | 0 => simp [revDigits]
    | m + 1 =>
      rw [Nat.digits_def' (by omega : 1 < b) (Nat.succ_pos m)]
      show ((m + 1) % b) :: revDigits b f ((m + 1) / b) = _
      rw [ih ((m + 1) / b) (by
        have hlt : (m + 1) / b < m + 1 :=
          Nat.div_lt_self (by omega) (by omega : 1 < b)
        omega)]

theorem natToBaseStr_eq {b : Nat} (hb : 2 ≤ b) (n : Nat) :
    natToBaseStr b n =
      if n = 0 then "0" else ⟨((Nat.digits b n).map digitCh).reverse⟩ := by
  unfold natToBaseStr
  rw [revDigits_eq_digits hb n n le_rfl]

theorem digitCh_injOn : ∀ x < 36, ∀ y < 36, digitCh x = digitCh y → x = y := by decide

theorem digitCh_ne_hyphen : ∀ x < 36, digitCh x ≠ '-' := by decide

theorem map_digitCh_inj {l1 l2 : List Nat} (h1 : ∀ x ∈ l1, x < 36)
    (h2 : ∀ x ∈ l2, x < 36) (h : l1.map digitCh = l2.map digitCh) : l1 = l2 := by
  induction l1 generalizing l2 with
  | nil => cases l2 <;> simp_all
  | cons a as ih =>
    cases l2 with
    | nil => simp_all
    | cons b bs =>
      simp only [List.map_cons, List.cons.injEq] at h
      have hab : a = b :=
        digitCh_injOn a (h1 a (by simp)) b (h2 b (by simp)) h.1
      subst hab
      have htail : as = bs :=
        ih (fun x hx => h1 x (by simp [hx])) (fun x hx => h2 x (by simp [hx])) h.2
      rw [htail]

theorem string_mk_inj {l1 l2 : List Char} (h : (⟨l1⟩ : String) = ⟨l2⟩) : l1 = l2 :=
  congrArg String.data h

theorem natToBaseStr_ne_zero {b : Nat} (hb2 : 2 ≤ b) (hb36 : b ≤ 36) {n : Nat}
    (hn : n ≠ 0) : natToBaseStr b n ≠ "0" := by
  rw [natToBaseStr_eq hb2, if_neg hn]
  intro h
  have hdata : ((Nat.digits b n).map digitCh).reverse = ['0'] :=
    congrArg String.data h
  have hrev : (Nat.digits b n).map digitCh = ['0'] := by
    have := congrArg List.reverse hdata
    simpa using this
  have hlen : (Nat.digits b n).length = 1 := by
    have := congrArg List.length hrev
    simpa using this
  obtain ⟨d, hd⟩ : ∃ d, Nat.digits b n = [d] := by
    cases hdig : Nat.digits b n with
    | nil => rw [hdig] at hlen; simp at hlen
    | cons x xs =>
      rw [hdig] at hlen
      simp at hlen
      exact ⟨x, by rw [hlen]⟩
  have hd36 : d < 36 :=
    lt_of_lt_of_le (Nat.digits_lt_base (by omega) (by rw [hd]; simp)) hb36
  have hd0 : d = 0 := by
    rw [hd] at hrev
    simp only [List.map_cons, List.map_nil, List.cons.injEq] at hrev
    exact digitCh_injOn d hd36 0 (by norm_num) (by rw [hrev.1]; rfl)
  have h0 := Nat.ofDigits_digits b n
  rw [hd, hd0] at h0
  simp [Nat.ofDigits] at h0
  exact hn h0.symm

theorem natToBaseStr_inj {b : Nat} (hb2 : 2 ≤ b) (hb36 : b ≤ 36) {m n : Nat}
    (h : natToBaseStr b m = natToBaseStr b n) : m = n := by
  have hb1 : 1 < b := hb2
  by_cases hm : m = 0 <;> by_cases hn : n = 0
  · rw [hm, hn]
  · exfalso
    rw [hm] at h
    exact natToBaseStr_ne_zero hb2 hb36 hn h.symm
  · exfalso
    rw [hn] at h
    exact natToBaseStr_ne_zero hb2 hb36 hm h
  · rw [natToBaseStr_eq hb2, natToBaseStr_eq hb2, if_neg hm, if_neg hn] at h
    have hdata := congrArg String.data h
    have hrev : (Nat.digits b m).map digitCh = (Nat.digits b n).map digitCh := by
      have := congrArg List.reverse hdata
      simpa using this
    have hdig : Nat.digits b m = Nat.digits b n :=
      map_digitCh_inj
        (fun x hx => lt_of_lt_of_le (Nat.digits_lt_base hb1 hx) hb36)
        (fun x hx => lt_of_lt_of_le (Nat.digits_lt_base hb1 hx) hb36) hrev
    calc m = Nat.ofDigits b (Nat.digits b m) := (Nat.ofDigits_digits b m).symm
    _ = Nat.ofDigits b (Nat.digits b n) := by rw [hdig]
    _ = n := Nat.ofDigits_digits b n

theorem natDec_inj {m n : Nat} (h : natDec m = natDec n) : m = n :=
  natToBaseStr_inj (by norm_num) (by norm_num) h

/-- Strings that differ at the second character are unequal: used to show the
per-tag messages (starting "Tag ") never coincide with the fixed messages. -/
theorem tag_prefix_ne (s t : String) (hc : t.data.get? 1 ≠ some 'a') :
    ("Tag " ++ s) ≠ t := by
  intro h
  apply hc
  have h2 := congrArg String.data h
  rw [String.data_append] at h2
  rw [← h2]
  rfl

/-- Raw CLI-collected product fields. Models `ProductInput` from
models/Product.ts; price and quantity are `Option` because the source checks
them against `undefined`/`null`. -/
structure ProductInput where
  title : String
  description : String
  price : Option ℚ
  quantity : Option ℤ
  tags : Option (List String) := none
  materials : Option (List String) := none
  images : Option (List String) := none
deriving DecidableEq

/-- Channel-agnostic product record. Models `Product`, the trimmed record
produced by `toProduct` (validated ProductInput minus the images field). -/
structure Product where
  title : String
  description : String
  price : Option ℚ
  quantity : Option ℤ
  tags : Option (List String)
  materials : Option (List String)
deriving DecidableEq

/-- Message emitted for an over-long tag sitting at 0-based index `k`: the
template literal `Tag ${index + 1} exceeds 20 characters`, showing the
1-based position `k + 1`. -/
def tagMsg (k : Nat) : String := "Tag " ++ natDec (k + 1) ++ " exceeds 20 characters"

/-- Per-tag length errors: mirrors the `forEach` over `input.tags` with its
running index inside `validateProductInput` (utils/validation.ts). -/
def tagErrorsFrom (k : Nat) : List String → List String
  | [] => []
  | t :: ts =>
    (if t.length > 20 then [tagMsg k] else []) ++ tagErrorsFrom (k + 1) ts

/-- Embedding of `validateProductInput` (utils/validation.ts): collects all
violation strings in source order, without short-circuiting. The JS test
`!input.title || input.title.trim().length === 0` on a string value is
exactly emptiness after trim. -/
def validateProductInput (input : ProductInput) : List String :=
  (if strTrim input.title = "" then ["Title is required"]
   else if input.title.length > 140 then ["Title must be 140 characters or less"]
   else [])
  ++ (if strTrim input.description = "" then ["Description is required"] else [])
  ++ (match input.price with
      | none => ["Price is required"]
      | some p => if p ≤ 0 then ["Price must be greater than 0"] else [])
  ++ (match input.quantity with
      | none => ["Quantity is required"]
      | some q => if q < 0 then ["Quantity must be 0 or greater"] else [])
  ++ (match input.tags with
      | none => []
      | some ts => if ts.length > 13 then ["Maximum 13 tags allowed"] else [])
  ++ (match input.tags with
      | none => []
      | some ts => tagErrorsFrom 0 ts)

/-- Embedding of `toProduct` (utils/validation.ts): trims title and
description and each tag and material; copies price and quantity. -/
def toProduct (input : ProductInput) : Product :=
  { title := strTrim input.title
    description := strTrim input.description
    price := input.price
    quantity := input.quantity
    tags := input.tags.map (fun l => l.map strTrim)
    materials := input.materials.map (fun l => l.map strTrim) }

/-- Views a Product back as command input, as the JS code can since Product
is structurally a subset of ProductInput (no images). -/
def productAsInput (p : Product) : ProductInput :=
  { title := p.title
    description := p.description
    price := p.price
    quantity := p.quantity
    tags := p.tags
    materials := p.materials
    images := none }

/-- Embedding of `SUPPORTED_CHANNELS` (utils/validation.ts). -/
def SUPPORTED_CHANNELS : List String := ["etsy", "website"]

/-- Embedding of `isValidChannel` (utils/validation.ts). -/
def isValidChannel (name : String) : Bool := SUPPORTED_CHANNELS.contains name

theorem tagMsg_assoc (j : Nat) :
    tagMsg j = "Tag " ++ (natDec (j + 1) ++ " exceeds 20 characters") := by
  rw [tagMsg, String.append_assoc]

theorem tagMsg_inj {i j : Nat} (h : tagMsg i = tagMsg j) : i = j := by
  rw [tagMsg_assoc, tagMsg_assoc] at h
  have h2 := congrArg String.data h
  rw [String.data_append, String.data_append, String.data_append,
    String.data_append] at h2
  have h3 := List.append_cancel_left h2
  have h4 := List.append_cancel_right h3
  have h5 : natDec (i + 1) = natDec (j + 1) := congrArg String.mk h4
  have := natDec_inj h5
  omega

theorem mem_tagErrorsFrom {s : String} :
    ∀ {ts : List String} {k : Nat}, s ∈ tagErrorsFrom k ts → ∃ j, s = tagMsg j := by
  intro ts
  induction ts with
  | nil => intro k h; simp [tagErrorsFrom] at h
  | cons t ts ih =>
    intro k h
    rw [tagErrorsFrom] at h
    rcases List.mem_append.mp h with h1 | h2
    · by_cases hlen : t.length > 20
      · rw [if_pos hlen] at h1
        simp at h1
        exact ⟨k, h1⟩
      · rw [if_neg hlen] at h1
        simp at h1
    · exact ih h2

theorem count_tagErrorsFrom_lt {j : Nat} :
    ∀ {ts : List String} {k : Nat}, j < k → (tagErrorsFrom k ts).count (tagMsg j) = 0 := by
  intro ts
  induction ts with
  | nil => intro k _; simp [tagErrorsFrom]
  | cons t ts ih =>
    intro k hjk
    have hne : (tagMsg k == tagMsg j) = false := by
      rw [beq_eq_false_iff_ne]
      intro h
      have := tagMsg_inj h
      omega
    rw [tagErrorsFrom, List.count_append,
      show (tagErrorsFrom (k + 1) ts).count (tagMsg j) = 0 from ih (by omega)]
    by_cases hlen : t.length > 20
    · rw [if_pos hlen, List.count_cons, List.count_nil, hne]
      rfl
    · rw [if_neg hlen]
      rfl

theorem count_tagErrorsFrom {ts : List String} :
    ∀ {k j : Nat}, j < ts.length →
      (tagErrorsFrom k ts).count (tagMsg (k + j)) =
        if 20 < (ts.getD j "").length then 1 else 0 := by
  induction ts with
  | nil => intro k j h; simp at h
  | cons t ts ih =>
    intro k j hj
    cases j with
    | zero =>
      rw [tagErrorsFrom, List.count_append,
        show (tagErrorsFrom (k + 1) ts).count (tagMsg (k + 0)) = 0 from
          count_tagErrorsFrom_lt (by omega)]
      rw [List.getD_cons_zero]
      by_cases hlen : t.length > 20
      · rw [if_pos hlen, if_pos hlen]
        simp [List.count_cons]
      · rw [if_neg hlen, if_neg hlen]
        rfl
    | succ j =>
      have hkj : k + (j + 1) = (k + 1) + j := by omega
      have hj2 : j < ts.length := by
        rw [List.length_cons] at hj
        omega
      rw [tagErrorsFrom, List.count_append, hkj,
        show (tagErrorsFrom (k + 1) ts).count (tagMsg ((k + 1) + j)) =
            if 20 < (ts.getD j "").length then 1 else 0 from ih hj2]
      rw [List.getD_cons_succ]
      have hne : (tagMsg k == tagMsg ((k + 1) + j)) = false := by
        rw [beq_eq_false_iff_ne]
        intro h
        have := tagMsg_inj h
        omega
      by_cases hlen : t.length > 20
      · rw [if_pos hlen, List.count_cons, List.count_nil, hne]
        simp
      · rw [if_neg hlen]
        simp

theorem mem_ite_singleton {c : Prop} [Decidable c] {a t : String} :
    a ∈ (if c then [t] else []) ↔ c ∧ a = t := by
  split <;> simp_all

theorem mem_ite2 {c1 c2 : Prop} [Decidable c1] [Decidable c2] {a t1 t2 : String} :
    a ∈ (if c1 then [t1] else if c2 then [t2] else []) ↔
      (c1 ∧ a = t1) ∨ (¬c1 ∧ c2 ∧ a = t2) := by
  split_ifs with h1 h2 <;> simp_all

theorem count_singleton_ne {a t : String} (h : t ≠ a) :
    ([t] : List String).count a = 0 := by
  rw [List.count_cons, List.count_nil, beq_eq_false_iff_ne.mpr h]
  simp

theorem count_ite_singleton_zero {c : Prop} [Decidable c] {a t : String} (h : t ≠ a) :
    (if c then [t] else []).count a = 0 := by
  split
  · exact count_singleton_ne h
  · rfl

theorem count_ite2_zero {c1 c2 : Prop} [Decidable c1] [Decidable c2]
    {a t1 t2 : String} (h1 : t1 ≠ a) (h2 : t2 ≠ a) :
    (if c1 then [t1] else if c2 then [t2] else []).count a = 0 := by
  split_ifs
  · exact count_singleton_ne h1
  · exact count_singleton_ne h2
  · rfl

/-- Strings that differ at the first character are unequal. -/
theorem tag_prefix_ne0 (s t : String) (hc : t.data.get? 0 ≠ some 'T') :
    ("Tag " ++ s) ≠ t := by
  intro h
  apply hc
  have h2 := congrArg String.data h
  rw [String.data_append] at h2
  rw [← h2]
  rfl

theorem tagMsg_ne_of_get1 (j : Nat) (t : String) (h : t.data.get? 1 ≠ some 'a') :
    tagMsg j ≠ t := by
  rw [tagMsg_assoc]
  exact tag_prefix_ne _ _ h

theorem tagMsg_ne_of_get0 (j : Nat) (t : String) (h : t.data.get? 0 ≠ some 'T') :
    tagMsg j ≠ t := by
  rw [tagMsg_assoc]
  exact tag_prefix_ne0 _ _ h

set_option maxHeartbeats 1600000 in
theorem mem_validate_iff (a : String) (i : ProductInput) :
    a ∈ validateProductInput i ↔
      (strTrim i.title = "" ∧ a = "Title is required") ∨
      (strTrim i.title ≠ "" ∧ 140 < i.title.length ∧
        a = "Title must be 140 characters or less") ∨
      (strTrim i.description = "" ∧ a = "Description is required") ∨
      (i.price = none ∧ a = "Price is required") ∨
      (∃ p, i.price = some p ∧ p ≤ 0 ∧ a = "Price must be greater than 0") ∨
      (i.quantity = none ∧ a = "Quantity is required") ∨
      (∃ q, i.quantity = some q ∧ q < 0 ∧ a = "Quantity must be 0 or greater") ∨
      (∃ ts, i.tags = some ts ∧ 13 < ts.length ∧ a = "Maximum 13 tags allowed") ∨
      (∃ ts, i.tags = some ts ∧ a ∈ tagErrorsFrom 0 ts) := by
  unfold validateProductInput
  rcases hp : i.price with _ | p <;> rcases hq : i.quantity with _ | q <;>
    rcases ht : i.tags with _ | ts <;>
    simp [List.mem_append, mem_ite_singleton, mem_ite2, hp, hq, ht] <;>
    tauto

theorem count_validate_tagMsg (i : ProductInput) (j : Nat) (ts : List String)
    (ht : i.tags = some ts) :
    (validateProductInput i).count (tagMsg j) = (tagErrorsFrom 0 ts).count (tagMsg j) := by
  have n1 : "Title is required" ≠ tagMsg j :=
    (tagMsg_ne_of_get1 j _ (by decide)).symm
  have n2 : "Title must be 140 characters or less" ≠ tagMsg j :=
    (tagMsg_ne_of_get1 j _ (by decide)).symm
  have n3 : "Description is required" ≠ tagMsg j :=
    (tagMsg_ne_of_get0 j _ (by decide)).symm
  have n4 : "Price is required" ≠ tagMsg j :=
    (tagMsg_ne_of_get0 j _ (by decide)).symm
  have n5 : "Price must be greater than 0" ≠ tagMsg j :=
    (tagMsg_ne_of_get0 j _ (by decide)).symm
  have n6 : "Quantity is required" ≠ tagMsg j :=
    (tagMsg_ne_of_get0 j _ (by decide)).symm
  have n7 : "Quantity must be 0 or greater" ≠ tagMsg j :=
    (tagMsg_ne_of_get0 j _ (by decide)).symm
  have n8 : "Maximum 13 tags allowed" ≠ tagMsg j :=
    (tagMsg_ne_of_get0 j _ (by decide)).symm
  unfold validateProductInput
  rw [ht]
  rcases hp : i.price with _ | p <;> rcases hq : i.quantity with _ | q <;>
    simp only [List.count_append, count_ite2_zero n1 n2, count_ite_singleton_zero n3,
      count_singleton_ne n4, count_ite_singleton_zero n5, count_singleton_ne n6,
      count_ite_singleton_zero n7, count_ite_singleton_zero n8, Nat.zero_add]

/-- C4 (amended): an empty-after-trim title always yields "Title is required";
a title of exactly 140 characters never yields the length violation; a title
of 141 or more characters that is non-empty after trimming yields the length
violation. (The unamended universal claim fails for whitespace-only titles of
141 characters or more, which fall into the required-title branch instead:
see the counterexample theorem.) -/
theorem title_validation_rules (i : ProductInput) :
    (strTrim i.title = "" → "Title is required" ∈ validateProductInput i) ∧
    (i.title.length = 140 →
      "Title must be 140 characters or less" ∉ validateProductInput i) ∧
    (141 ≤ i.title.length → strTrim i.title ≠ "" →
      "Title must be 140 characters or less" ∈ validateProductInput i) := by
  refine ⟨?_, ?_, ?_⟩
  · intro h
    rw [mem_validate_iff]
    exact Or.inl ⟨h, rfl⟩
  · intro hlen hmem
    rw [mem_validate_iff] at hmem
    rcases hmem with ⟨h1, h2⟩ | ⟨h1, h2, h3⟩ | ⟨h1, h2⟩ | ⟨h1, h2⟩ | ⟨p, hp, h2, h3⟩ |
      ⟨h1, h2⟩ | ⟨q, hq, h2, h3⟩ | ⟨ts, hts, h2, h3⟩ | ⟨ts, hts, hmem2⟩
    · exact absurd h2 (by decide)
    · omega
    · exact absurd h2 (by decide)
    · exact absurd h2 (by decide)
    · exact absurd h3 (by decide)
    · exact absurd h2 (by decide)
    · exact absurd h3 (by decide)
    · exact absurd h3 (by decide)
    · obtain ⟨j, hj⟩ := mem_tagErrorsFrom hmem2
      exact (tagMsg_ne_of_get1 j _ (by decide)) hj.symm
  · intro hlen hne
    rw [mem_validate_iff]
    exact Or.inr (Or.inl ⟨hne, by omega, rfl⟩)

set_option maxRecDepth 4000 in
/-- C4 counterexample: a title of 141 characters (all spaces) does NOT
produce the title-length violation, refuting the claim that every title of
141 or more characters yields it. -/
theorem title_len_claim_counterexample :
    141 ≤ (ProductInput.mk ⟨List.replicate 141 ' '⟩ "d" (some 1) (some 1)
        none none none).title.length ∧
    "Title must be 140 characters or less" ∉
      validateProductInput
        (ProductInput.mk ⟨List.replicate 141 ' '⟩ "d" (some 1) (some 1)
          none none none) := by
  constructor
  · decide
  · decide

set_option maxRecDepth 4000 in
/-- C4 witness: the amended rules applied at concrete inputs. -/
theorem title_validation_rules_witness :
    ("Title is required" ∈ validateProductInput
      (ProductInput.mk " " "d" (some 1) (some 1) none none none)) ∧
    ("Title must be 140 characters or less" ∉ validateProductInput
      (ProductInput.mk ⟨List.replicate 140 'a'⟩ "d" (some 1) (some 1) none none none)) ∧
    ("Title must be 140 characters or less" ∈ validateProductInput
      (ProductInput.mk ⟨List.replicate 141 'a'⟩ "d" (some 1) (some 1) none none none)) :=
  ⟨(title_validation_rules _).1 (by decide),
   (title_validation_rules _).2.1 (by decide),
   (title_validation_rules _).2.2 (by decide) (by decide)⟩

/-- C5: with a tags list present, 14 or more tags yield the count violation
and 13 or fewer do not; and for each position, a tag longer than 20
characters contributes exactly one message naming its 1-based position
(tagMsg j shows position j + 1), while a tag of at most 20 characters
contributes none. -/
theorem tag_validation_rules (i : ProductInput) (ts : List String)
    (ht : i.tags = some ts) :
    (14 ≤ ts.length → "Maximum 13 tags allowed" ∈ validateProductInput i) ∧
    (ts.length ≤ 13 → "Maximum 13 tags allowed" ∉ validateProductInput i) ∧
    (∀ j, j < ts.length →
      (20 < (ts.getD j "").length → (validateProductInput i).count (tagMsg j) = 1) ∧
      ((ts.getD j "").length ≤ 20 → (validateProductInput i).count (tagMsg j) = 0)) := by
  refine ⟨?_, ?_, ?_⟩
  · intro h
    rw [mem_validate_iff]
    exact Or.inr (Or.inr (Or.inr (Or.inr (Or.inr (Or.inr (Or.inr (Or.inl
      ⟨ts, ht, by omega, rfl⟩)))))))
  · intro hle hmem
    rw [mem_validate_iff] at hmem
    rcases hmem with ⟨h1, h2⟩ | ⟨h1, h2, h3⟩ | ⟨h1, h2⟩ | ⟨h1, h2⟩ | ⟨p, hp, h2, h3⟩ |
      ⟨h1, h2⟩ | ⟨q, hq, h2, h3⟩ | ⟨ts2, hts2, hlen2, h3⟩ | ⟨ts2, hts2, hmem2⟩
    · exact absurd h2 (by decide)
    · exact absurd h3 (by decide)
    · exact absurd h2 (by decide)
    · exact absurd h2 (by decide)
    · exact absurd h3 (by decide)
    · exact absurd h2 (by decide)
    · exact absurd h3 (by decide)
    · rw [ht] at hts2
      injection hts2 with he
      subst he
      omega
    · obtain ⟨j, hj⟩ := mem_tagErrorsFrom hmem2
      exact (tagMsg_ne_of_get0 j _ (by decide)) hj.symm
  · intro j hj
    have hcount := count_validate_tagMsg i j ts ht
    have h0 := @count_tagErrorsFrom ts 0 j hj
    rw [Nat.zero_add] at h0
    constructor
    · intro hgt
      rw [hcount, h0, if_pos hgt]
    · intro hle2
      rw [hcount, h0, if_neg (by omega)]

/-- C5 witness: two tags, the first 21 characters long and the second short,
in a list of length 2 (within the 13-tag limit). -/
theorem tag_validation_rules_witness :
    ("Maximum 13 tags allowed" ∉ validateProductInput
      (ProductInput.mk "T" "D" (some 1) (some 1)
        (some ["aaaaaaaaaaaaaaaaaaaaa", "ok"]) none none)) ∧
    (validateProductInput
      (ProductInput.mk "T" "D" (some 1) (some 1)
        (some ["aaaaaaaaaaaaaaaaaaaaa", "ok"]) none none)).count (tagMsg 0) = 1 ∧
    (validateProductInput
      (ProductInput.mk "T" "D" (some 1) (some 1)
        (some ["aaaaaaaaaaaaaaaaaaaaa", "ok"]) none none)).count (tagMsg 1) = 0 :=
  ⟨(tag_validation_rules _ _ rfl).2.1 (by decide),
   ((tag_validation_rules _ _ rfl).2.2 0 (by decide)).1 (by decide),
   ((tag_validation_rules _ _ rfl).2.2 1 (by decide)).2 (by decide)⟩

theorem list_map_strTrim_id {l : List String} (h : ∀ t ∈ l, strTrim t = t) :
    l.map strTrim = l := by
  induction l with
  | nil => rfl
  | cons t ts ih => simp_all

/-- C6: toProduct trims the title and the description and each tag and each
material; and on input whose text fields and list entries are already
trimmed, converting twice (viewing the Product back as input) yields the same
Product as converting once. -/
theorem toProduct_trims_and_idem (i : ProductInput) :
    ((toProduct i).title = strTrim i.title ∧
     (toProduct i).description = strTrim i.description ∧
     (toProduct i).tags = i.tags.map (fun l => l.map strTrim) ∧
     (toProduct i).materials = i.materials.map (fun l => l.map strTrim)) ∧
    (strTrim i.title = i.title → strTrim i.description = i.description →
      (∀ ts, i.tags = some ts → ∀ t ∈ ts, strTrim t = t) →
      (∀ ms, i.materials = some ms → ∀ m ∈ ms, strTrim m = m) →
      toProduct (productAsInput (toProduct i)) = toProduct i) := by
  refine ⟨⟨rfl, rfl, rfl, rfl⟩, ?_⟩
  intro h1 h2 h3 h4
  simp only [toProduct, productAsInput, Product.mk.injEq]
  refine ⟨?_, ?_, trivial, trivial, ?_, ?_⟩
  · rw [h1]
    exact h1
  · rw [h2]
    exact h2
  · rcases hts : i.tags with _ | ts
    · rfl
    · simp [list_map_strTrim_id (h3 ts hts)]
  · rcases hms : i.materials with _ | ms
    · rfl
    · simp [list_map_strTrim_id (h4 ms hms)]

/-- C6 witness: an already-trimmed concrete input converts idempotently. -/
theorem toProduct_trims_and_idem_witness :
    toProduct (productAsInput (toProduct
      (ProductInput.mk "Mug" "Nice" (some 10) (some 2) (some ["a", "b"])
        (some ["wood"]) none))) =
    toProduct
      (ProductInput.mk "Mug" "Nice" (some 10) (some 2) (some ["a", "b"])
        (some ["wood"]) none) :=
  (toProduct_trims_and_idem _).2 (by decide) (by decide)
    (by intro ts hts; cases hts; decide)
    (by intro ms hms; cases hms; decide)

/-- Outcome record of any channel operation. Models `ProductOperationResult`
(identical in shape to `ProductCreationResult` in models/Product.ts). -/
structure ProductOperationResult where
  success : Bool
  listingId : Option String := none
  message : String
  errors : Option (List String) := none
deriving DecidableEq

/-- Error payload the Etsy API may attach to an error response
(`data.error` and `data.errors` in EtsyService.handleError). -/
structure ErrData where
  error : Option String
  errors : Option (List String)
deriving DecidableEq

/-- Server error response carried by an Axios error. -/
structure ErrResponse where
  status : Nat
  statusText : String
  data : ErrData
deriving DecidableEq

/-- Model of thrown JS errors as EtsyService.handleError inspects them: an
Axios error with an optional server response, a flag recording whether the
request object is present (request sent but no response), and a message; or
any other thrown value reduced to its message string. -/
inductive JsError where
  | axios (response : Option ErrResponse) (request : Bool) (message : String)
  | other (message : String)
deriving DecidableEq

def optToList : Option String → List String
  | some e => [e]
  | none => []

def optListToList : Option (List String) → List String
  | some es => es
  | none => []

/-- Template literal `API Error: ${status} - ${statusText}`. -/
def apiErrorLine (r : ErrResponse) : String :=
  "API Error: " ++ (natDec r.status ++ (" - " ++ r.statusText))

/-- Embedding of `EtsyService.handleError` (services/EtsyService.ts): each
failure is converted into a failed result whose error strings follow the
source: response present pushes the API error line then `data.error` then
`data.errors`; request without response pushes the fixed no-response line;
otherwise the request-setup line with the error message. -/
def handleError : JsError → ProductOperationResult
  | .axios (some r) _ _ =>
    { success := false, message := "Failed to process request",
      errors := some ((apiErrorLine r :: optToList r.data.error)
        ++ optListToList r.data.errors) }
  | .axios none true _ =>
    { success := false, message := "Failed to process request",
      errors := some ["No response from Etsy API. Please check your connection."] }
  | .axios none false message =>
    { success := false, message := "Failed to process request",
      errors := some ["Request error: " ++ message] }
  | .other message =>
    { success := false, message := "An unexpected error occurred",
      errors := some [message] }

theorem handleError_success_false (e : JsError) : (handleError e).success = false := by
  cases e with
  | axios resp req msg => cases resp <;> cases req <;> rfl
  | other msg => rfl

/-- Body of a successful Etsy listing response (`response.data.listing_id`,
possibly absent). -/
structure ListingResponse where
  listing_id : Option Nat
deriving DecidableEq

/-- Embedding of `EtsyService.createListing`: the HTTP POST is abstracted as
an oracle giving either the response or the thrown error; a success maps the
listing id to a string, an error goes through handleError (never raised). -/
def etsyCreateListing (net : Except JsError ListingResponse) : ProductOperationResult :=
  match net with
  | .ok r =>
    { success := true, listingId := r.listing_id.map natDec,
      message := "Product listing created successfully on Etsy" }
  | .error e => handleError e

/-- Embedding of `EtsyService.updateListing`, same shape via PATCH. -/
def etsyUpdateListing (net : Except JsError ListingResponse) : ProductOperationResult :=
  match net with
  | .ok r =>
    { success := true, listingId := r.listing_id.map natDec,
      message := "Product listing updated successfully on Etsy" }
  | .error e => handleError e

/-- One image-upload POST request: `{ image_url: url, rank: index + 1 }`. -/
structure ImgReq where
  url : String
  rank : Nat
deriving DecidableEq

/-- Requests built by `imageUrls.map((url, index) => post(..., rank: index+1))`
starting at 0-based index `k`. -/
def uploadReqsFrom (k : Nat) : List String → List ImgReq
  | [] => []
  | u :: us => { url := u, rank := k + 1 } :: uploadReqsFrom (k + 1) us

def uploadReqs (urls : List String) : List ImgReq := uploadReqsFrom 0 urls

/-- Embedding of `EtsyService.uploadImages`: every URL gets its own POST (all
requests are created up front by the map); `Promise.all` succeeds iff every
request succeeds, and otherwise settles with a rejection, modelled as the
first failing request in list order, converted by handleError. -/
def etsyUploadImages (listingId : String) (urls : List String)
    (net : ImgReq → Except JsError Unit) : ProductOperationResult :=
  match (uploadReqs urls).findSome?
      (fun r => match net r with | .error e => some e | .ok _ => none) with
  | none =>
    { success := true, listingId := some listingId,
      message := natDec urls.length ++ " image(s) uploaded successfully" }
  | some e => handleError e

/-- Spec-side classification of an Axios failure into the three documented
cases (server error status, no response, request not constructed). -/
inductive AxiosCase where
  | serverError
  | noResponse
  | setupError
deriving DecidableEq

def axiosCaseOf : Option ErrResponse → Bool → AxiosCase
  | some _, _ => .serverError
  | none, true => .noResponse
  | none, false => .setupError

/-- First error string handleError produces for each Axios failure case. -/
def expectedFirstError : Option ErrResponse → Bool → String → String
  | some r, _, _ => apiErrorLine r
  | none, true, _ => "No response from Etsy API. Please check your connection."
  | none, false, message => "Request error: " ++ message

theorem string_append_ne_of_first {a b : Char} {s t x y : String}
    (hs : s.data.get? 0 = some a) (ht : t.data.get? 0 = some b) (hab : a ≠ b) :
    s ++ x ≠ t ++ y := by
  intro h
  apply hab
  have h2 := congrArg String.data h
  rw [String.data_append, String.data_append] at h2
  have h3 := congrArg (fun l => l.get? 0) h2
  simp only at h3
  have hslen : 0 < s.data.length := by
    cases hd : s.data with
    | nil => rw [hd] at hs; cases hs
    | cons c cs => simp
  have htlen : 0 < t.data.length := by
    cases hd : t.data with
    | nil => rw [hd] at ht; cases ht
    | cons c cs => simp
  rw [List.get?_append hslen, List.get?_append htlen, hs, ht] at h3
  injection h3

theorem string_append_ne_lit {a b : Char} {s x t : String}
    (hs : s.data.get? 0 = some a) (ht : t.data.get? 0 = some b) (hab : a ≠ b) :
    s ++ x ≠ t := by
  intro h
  apply hab
  have h2 := congrArg String.data h
  rw [String.data_append] at h2
  have h3 := congrArg (fun l => l.get? 0) h2
  simp only at h3
  have hslen : 0 < s.data.length := by
    cases hd : s.data with
    | nil => rw [hd] at hs; cases hs
    | cons c cs => simp
  rw [List.get?_append hslen, hs, ht] at h3
  injection h3

/-- C3: every Etsy operation converts an Axios transport/HTTP failure into a
returned (never thrown) failed result with at least one error string whose
head identifies the failure case, and the head strings of distinct cases
never coincide (they begin "API Error: ", "No response", "Request error: "
respectively). -/
theorem etsy_error_handling :
    (∀ resp req msg,
      (etsyCreateListing (Except.error (JsError.axios resp req msg))).success = false ∧
      (etsyUpdateListing (Except.error (JsError.axios resp req msg))).success = false ∧
      ∃ es,
        (etsyCreateListing (Except.error (JsError.axios resp req msg))).errors = some es ∧
        (etsyUpdateListing (Except.error (JsError.axios resp req msg))).errors = some es ∧
        es ≠ [] ∧ es.head? = some (expectedFirstError resp req msg)) ∧
    (∀ lid u us resp req msg,
      (etsyUploadImages lid (u :: us)
        (fun _ => Except.error (JsError.axios resp req msg))).success = false ∧
      ∃ es,
        (etsyUploadImages lid (u :: us)
          (fun _ => Except.error (JsError.axios resp req msg))).errors = some es ∧
        es ≠ [] ∧ es.head? = some (expectedFirstError resp req msg)) ∧
    (∀ r1 q1 m1 r2 q2 m2, axiosCaseOf r1 q1 ≠ axiosCaseOf r2 q2 →
      expectedFirstError r1 q1 m1 ≠ expectedFirstError r2 q2 m2) := by
  refine ⟨?_, ?_, ?_⟩
  · intro resp req msg
    match resp, req with
    | some r, req =>
      exact ⟨rfl, rfl, apiErrorLine r :: (optToList r.data.error ++ optListToList r.data.errors),
        rfl, rfl, by simp, rfl⟩
    | none, true => exact ⟨rfl, rfl, _, rfl, rfl, by simp, rfl⟩
    | none, false => exact ⟨rfl, rfl, _, rfl, rfl, by simp, rfl⟩
  · intro lid u us resp req msg
    match resp, req with
    | some r, req =>
      exact ⟨rfl, apiErrorLine r :: (optToList r.data.error ++ optListToList r.data.errors),
        rfl, by simp, rfl⟩
    | none, true => exact ⟨rfl, _, rfl, by simp, rfl⟩
    | none, false => exact ⟨rfl, _, rfl, by simp, rfl⟩
  · intro r1 q1 m1 r2 q2 m2 hne
    match r1, q1, r2, q2 with
    | some r, _, some r2, _ => exact absurd rfl hne
    | some r, _, none, true =>
      exact string_append_ne_lit (a := 'A') (b := 'N') (s := "API Error: ") rfl rfl (by decide)
    | some r, _, none, false =>
      exact string_append_ne_of_first (a := 'A') (b := 'R') (s := "API Error: ")
        (t := "Request error: ") rfl rfl (by decide)
    | none, true, some r2, _ =>
      exact (string_append_ne_lit (a := 'A') (b := 'N') (s := "API Error: ")
        (t := "No response from Etsy API. Please check your connection.")
        rfl rfl (by decide)).symm
    | none, true, none, true => exact absurd rfl hne
    | none, true, none, false =>
      exact (string_append_ne_lit (a := 'R') (b := 'N') (s := "Request error: ")
        (t := "No response from Etsy API. Please check your connection.")
        rfl rfl (by decide)).symm
    | none, false, some r2, _ =>
      exact (string_append_ne_of_first (a := 'A') (b := 'R') (s := "API Error: ")
        (t := "Request error: ") rfl rfl (by decide)).symm
    | none, false, none, true =>
      exact string_append_ne_lit (a := 'R') (b := 'N') (s := "Request error: ")
        rfl rfl (by decide)
    | none, false, none, false => exact absurd rfl hne

/-- C3 witness: the error handling theorem applied at concrete failures,
including its case-distinguishing part. -/
theorem etsy_error_handling_witness :
    (etsyCreateListing (Except.error (JsError.axios
      (some ⟨500, "Internal Server Error", ⟨none, none⟩⟩) false "boom"))).success = false ∧
    expectedFirstError (some ⟨500, "Internal Server Error", ⟨none, none⟩⟩) false "boom" ≠
      expectedFirstError none true "boom" :=
  ⟨(etsy_error_handling.1 _ _ _).1,
   etsy_error_handling.2.2 _ _ _ _ _ _ (by decide)⟩

theorem uploadReqsFrom_map_url (urls : List String) :
    ∀ k, (uploadReqsFrom k urls).map ImgReq.url = urls := by
  induction urls with
  | nil => intro k; rfl
  | cons u us ih => intro k; simp [uploadReqsFrom, ih]

theorem uploadReqsFrom_map_rank (urls : List String) :
    ∀ k, (uploadReqsFrom k urls).map ImgReq.rank = List.range' (k + 1) urls.length := by
  induction urls with
  | nil => intro k; rfl
  | cons u us ih =>
    intro k
    rw [uploadReqsFrom, List.map_cons, List.length_cons, List.range'_succ, ih (k + 1)]

/-- C7: the Etsy image upload issues exactly one POST per URL, with ranks
1 through n in list order; when every request succeeds the result is a
success reporting the count, and when any single request fails the whole
operation's result is a failure. -/
theorem etsy_upload_images_spec :
    (∀ urls : List String,
      (uploadReqs urls).map ImgReq.url = urls ∧
      (uploadReqs urls).map ImgReq.rank = List.range' 1 urls.length) ∧
    (∀ (lid : String) (urls : List String) (net : ImgReq → Except JsError Unit),
      urls ≠ [] →
      ((∀ r ∈ uploadReqs urls, net r = Except.ok ()) →
        (etsyUploadImages lid urls net).success = true ∧
        (etsyUploadImages lid urls net).message =
          natDec urls.length ++ " image(s) uploaded successfully") ∧
      ((∃ r ∈ uploadReqs urls, ∃ e, net r = Except.error e) →
        (etsyUploadImages lid urls net).success = false)) := by
  constructor
  · intro urls
    exact ⟨uploadReqsFrom_map_url urls 0, by
      rw [uploadReqs, uploadReqsFrom_map_rank urls 0]⟩
  · intro lid urls net hne
    constructor
    · intro hok
      have hnone : (uploadReqs urls).findSome?
          (fun r => match net r with | .error e => some e | .ok _ => none) = none := by
        rw [List.findSome?_eq_none_iff]
        intro r hr
        rw [hok r hr]
      rw [etsyUploadImages, hnone]
      exact ⟨rfl, rfl⟩
    · rintro ⟨r, hr, e, he⟩
      cases hfs : (uploadReqs urls).findSome?
          (fun r => match net r with | .error e => some e | .ok _ => none) with
      | none =>
        exfalso
        have := List.findSome?_eq_none_iff.mp hfs r hr
        rw [he] at this
        cases this
      | some e2 =>
        rw [etsyUploadImages, hfs]
        exact handleError_success_false e2

/-- C7 witness: two URLs produce requests with ranks [1, 2]; a fully
successful oracle yields success, and an oracle failing on the second
request fails the whole operation. -/
theorem etsy_upload_images_spec_witness :
    (uploadReqs ["u1", "u2"]).map ImgReq.rank = [1, 2] ∧
    (etsyUploadImages "7" ["u1", "u2"] (fun _ => Except.ok ())).success = true ∧
    (etsyUploadImages "7" ["u1", "u2"]
      (fun r => if r.rank = 2 then Except.error (JsError.other "down") else
        Except.ok ())).success = false :=
  ⟨by rw [(etsy_upload_images_spec.1 ["u1", "u2"]).2]; decide,
   ((etsy_upload_images_spec.2 "7" ["u1", "u2"] _ (by decide)).1
     (by intro r hr; rfl)).1,
   (etsy_upload_images_spec.2 "7" ["u1", "u2"] _ (by decide)).2
     ⟨⟨"u2", 2⟩, by decide, JsError.other "down", rfl⟩⟩

/-- One entry of the website channel's `products.json` catalogue index:
`{id, title, price, quantity}`. Non-id fields are optional because
updateCatalogue receives a `Partial<Product>`. -/
structure CatEntry where
  id : String
  title : Option String
  price : Option ℚ
  quantity : Option ℤ
deriving DecidableEq

/-- The fields of a `Partial<Product>` that updateCatalogue reads. -/
structure PartialProduct where
  title : Option String
  price : Option ℚ
  quantity : Option ℤ
deriving DecidableEq

/-- The upserted entry `{id, title: product.title, price, quantity}`. In the
replace branch the JS spread `{...catalogue[idx], ...entry}` overwrites all
four keys (they are own properties of `entry` even when undefined), so the
merged entry equals `entry`. -/
def catEntryOf (id : String) (p : PartialProduct) : CatEntry :=
  { id := id, title := p.title, price := p.price, quantity := p.quantity }

/-- Embedding of `WebsiteChannel.updateCatalogue`: find the first index whose
entry has the given id; replace it there, otherwise push at the end. -/
def updateCatalogue (cat : List CatEntry) (id : String) (p : PartialProduct) :
    List CatEntry :=
  match cat.findIdx? (fun e => e.id = id) with
  | some i => cat.set i (catEntryOf id p)
  | none => cat ++ [catEntryOf id p]

/-- Recursive description of the upsert used for reasoning: replace the first
entry with the id, else append. -/
def upsertRec (id : String) (p : PartialProduct) : List CatEntry → List CatEntry
  | [] => [catEntryOf id p]
  | e :: es => if e.id = id then catEntryOf id p :: es else e :: upsertRec id p es

theorem updateCatalogue_eq_upsertRec (id : String) (p : PartialProduct) :
    ∀ cat, updateCatalogue cat id p = upsertRec id p cat := by
  intro cat
  induction cat with
  | nil => rfl
  | cons e es ih =>
    by_cases he : e.id = id
    · simp [updateCatalogue, upsertRec, List.findIdx?_cons, he]
    · cases hfi : es.findIdx? (fun x => x.id = id) with
      | none =>
        have hes : updateCatalogue es id p = es ++ [catEntryOf id p] := by
          simp [updateCatalogue, hfi]
        simp [updateCatalogue, upsertRec, List.findIdx?_cons, List.findIdx?_succ,
          he, hfi, ← ih, hes]
      | some i =>
        have hes : updateCatalogue es id p = es.set i (catEntryOf id p) := by
          simp [updateCatalogue, hfi]
        simp [updateCatalogue, upsertRec, List.findIdx?_cons, List.findIdx?_succ,
          he, hfi, ← ih, hes]

/-- Character class `[a-z0-9]` of the slug regex after lowercasing. -/
def isSlugChar (c : Char) : Bool :=
  (decide ('a' ≤ c) && decide (c ≤ 'z')) || (decide ('0' ≤ c) && decide (c ≤ '9'))

/-- Replacement `replace(/[^a-z0-9]+/g, '-')`: every maximal run of
non-slug characters becomes a single hyphen. The flag records whether the
previous character was inside such a run. -/
def collapseAux : Bool → List Char → List Char
  | _, [] => []
  | inRun, c :: cs =>
    if isSlugChar c then c :: collapseAux false cs
    else if inRun then collapseAux true cs
    else '-' :: collapseAux true cs

/-- Removal of one leading hyphen, half of `replace(/^-|-$/g, '')`. -/
def dropLeadingHyphen : List Char → List Char
  | '-' :: rest => rest
  | l => l

/-- Removal of one trailing hyphen, the other half of the edge-strip regex. -/
def dropTrailingHyphen (l : List Char) : List Char :=
  (dropLeadingHyphen l.reverse).reverse

/-- Embedding of `WebsiteChannel.generateId`'s slug: lowercase, collapse
non-alphanumeric runs to single hyphens, strip one hyphen from each edge. -/
def slugify (title : String) : List Char :=
  dropTrailingHyphen (dropLeadingHyphen (collapseAux false (title.data.map Char.toLower)))

/-- Embedding of `WebsiteChannel.generateId`: `${slug}-${timestamp base 36}`,
with the timestamp passed explicitly (`Date.now()` in the source). -/
def generateId (title : String) (ts : Nat) : String :=
  ⟨slugify title ++ ('-' :: (natToBaseStr 36 ts).data)⟩

/-- Catalogue entry fields used by createListing for a full product. -/
def fullEntry (p : Product) : PartialProduct :=
  { title := some p.title, price := p.price, quantity := p.quantity }

/-- Catalogue effect of `WebsiteChannel.createListing` (the product file
write aside): generate the id and upsert the summary entry; returns the new
catalogue and the listing id. -/
def websiteCreateCatalogue (cat : List CatEntry) (p : Product) (ts : Nat) :
    List CatEntry × String :=
  (updateCatalogue cat (generateId p.title ts) (fullEntry p), generateId p.title ts)

theorem takeWhile_append_marker {p : Char → Bool} :
    ∀ {xs : List Char} {y : Char} {ys : List Char},
      (∀ x ∈ xs, p x = true) → p y = false → (xs ++ y :: ys).takeWhile p = xs := by
  intro xs
  induction xs with
  | nil => intro y ys _ hy; simp [List.takeWhile_cons, hy]
  | cons x xs ih =>
    intro y ys hall hy
    simp [List.takeWhile_cons, hall x (by simp),
      ih (fun z hz => hall z (by simp [hz])) hy]

theorem last_marker_suffix {c : Char} {l1 r1 l2 r2 : List Char}
    (h1 : c ∉ r1) (h2 : c ∉ r2) (h : l1 ++ c :: r1 = l2 ++ c :: r2) : r1 = r2 := by
  have hrev := congrArg List.reverse h
  rw [List.reverse_append, List.reverse_append, List.reverse_cons, List.reverse_cons,
    List.append_assoc, List.append_assoc, List.singleton_append,
    List.singleton_append] at hrev
  have ht := congrArg (List.takeWhile (fun d => d != c)) hrev
  rw [takeWhile_append_marker
      (fun x hx => by
        rw [bne_iff_ne]
        intro hxc
        exact h1 (by rw [← hxc]; exact List.mem_reverse.mp hx))
      (by simp),
    takeWhile_append_marker
      (fun x hx => by
        rw [bne_iff_ne]
        intro hxc
        exact h2 (by rw [← hxc]; exact List.mem_reverse.mp hx))
      (by simp)] at ht
  have := congrArg List.reverse ht
  simpa using this

theorem natToBaseStr36_no_hyphen (ts : Nat) : '-' ∉ (natToBaseStr 36 ts).data := by
  rw [natToBaseStr_eq (by norm_num)]
  split
  · decide
  · intro hmem
    simp only [List.mem_reverse, List.mem_map] at hmem
    obtain ⟨d, hd, hdc⟩ := hmem
    have hd36 : d < 36 := Nat.digits_lt_base (by norm_num) hd
    exact digitCh_ne_hyphen d hd36 hdc

theorem generateId_ne_of_ts_ne {t1 t2 : String} {ts1 ts2 : Nat} (h : ts1 ≠ ts2) :
    generateId t1 ts1 ≠ generateId t2 ts2 := by
  intro he
  have hd := congrArg String.data he
  have hsuffix : (natToBaseStr 36 ts1).data = (natToBaseStr 36 ts2).data :=
    last_marker_suffix (natToBaseStr36_no_hyphen ts1) (natToBaseStr36_no_hyphen ts2) hd
  exact h (natToBaseStr_inj (by norm_num) (by norm_num) (congrArg String.mk hsuffix))

theorem upsertRec_map_id (id : String) (p : PartialProduct) :
    ∀ cat : List CatEntry,
      (upsertRec id p cat).map CatEntry.id =
        if id ∈ cat.map CatEntry.id then cat.map CatEntry.id
        else cat.map CatEntry.id ++ [id] := by
  intro cat
  induction cat with
  | nil => simp [upsertRec, catEntryOf]
  | cons e es ih =>
    by_cases he : e.id = id
    · simp [upsertRec, he, catEntryOf]
    · by_cases hm : id ∈ es.map CatEntry.id
      · simp [upsertRec, he, catEntryOf, ih, hm, Ne.symm he]
      · simp [upsertRec, he, catEntryOf, ih, hm, Ne.symm he]

theorem updateCatalogue_map_id (cat : List CatEntry) (id : String) (p : PartialProduct) :
    (updateCatalogue cat id p).map CatEntry.id =
      if id ∈ cat.map CatEntry.id then cat.map CatEntry.id
      else cat.map CatEntry.id ++ [id] := by
  rw [updateCatalogue_eq_upsertRec, upsertRec_map_id]

theorem mem_updateCatalogue_id (cat : List CatEntry) (id : String) (p : PartialProduct) :
    id ∈ (updateCatalogue cat id p).map CatEntry.id := by
  rw [updateCatalogue_map_id]
  split
  · assumption
  · simp

theorem mem_updateCatalogue_id_mono (cat : List CatEntry) (id id2 : String)
    (p : PartialProduct) (h : id2 ∈ cat.map CatEntry.id) :
    id2 ∈ (updateCatalogue cat id p).map CatEntry.id := by
  rw [updateCatalogue_map_id]
  split
  · exact h
  · exact List.mem_append_left _ h

/-- C8: the catalogue upsert keyed by id preserves distinctness of ids and
leaves exactly one entry for the upserted id (so re-updating a product keeps
a single entry); ids generated at different timestamps differ; and creating
two products at different timestamps yields a catalogue holding both distinct
ids with all ids still distinct. -/
theorem website_catalogue_spec :
    (∀ (cat : List CatEntry) (id : String) (p : PartialProduct),
      (cat.map CatEntry.id).Nodup →
        ((updateCatalogue cat id p).map CatEntry.id).Nodup ∧
        ((updateCatalogue cat id p).map CatEntry.id).count id = 1) ∧
    (∀ (t1 t2 : String) (ts1 ts2 : Nat), ts1 ≠ ts2 →
      generateId t1 ts1 ≠ generateId t2 ts2) ∧
    (∀ (cat : List CatEntry) (p1 p2 : Product) (ts1 ts2 : Nat), ts1 ≠ ts2 →
      (cat.map CatEntry.id).Nodup →
      (((websiteCreateCatalogue (websiteCreateCatalogue cat p1 ts1).1 p2 ts2).1.map
          CatEntry.id).Nodup ∧
       generateId p1.title ts1 ∈
         (websiteCreateCatalogue (websiteCreateCatalogue cat p1 ts1).1 p2 ts2).1.map
           CatEntry.id ∧
       generateId p2.title ts2 ∈
         (websiteCreateCatalogue (websiteCreateCatalogue cat p1 ts1).1 p2 ts2).1.map
           CatEntry.id ∧
       generateId p1.title ts1 ≠ generateId p2.title ts2)) := by
  have hupsert : ∀ (cat : List CatEntry) (id : String) (p : PartialProduct),
      (cat.map CatEntry.id).Nodup →
        ((updateCatalogue cat id p).map CatEntry.id).Nodup ∧
        ((updateCatalogue cat id p).map CatEntry.id).count id = 1 := by
    intro cat id p hnd
    rw [updateCatalogue_map_id]
    by_cases hm : id ∈ cat.map CatEntry.id
    · rw [if_pos hm]
      exact ⟨hnd, List.count_eq_one_of_mem hnd hm⟩
    · rw [if_neg hm]
      constructor
      · simp [List.nodup_append, hnd, hm]
      · rw [List.count_append, List.count_eq_zero.mpr hm]
        simp
  refine ⟨hupsert, fun t1 t2 ts1 ts2 h => generateId_ne_of_ts_ne h, ?_⟩
  intro cat p1 p2 ts1 ts2 hts hnd
  have hne : generateId p1.title ts1 ≠ generateId p2.title ts2 :=
    generateId_ne_of_ts_ne hts
  have h1 := hupsert cat (generateId p1.title ts1) (fullEntry p1) hnd
  have h2 := hupsert (updateCatalogue cat (generateId p1.title ts1) (fullEntry p1))
    (generateId p2.title ts2) (fullEntry p2) h1.1
  refine ⟨h2.1, ?_, ?_, hne⟩
  · exact mem_updateCatalogue_id_mono _ _ _ _ (mem_updateCatalogue_id cat _ (fullEntry p1))
  · exact mem_updateCatalogue_id _ _ _

/-- C8 witness: the upsert and double-create parts applied at concrete
inputs (empty catalogue, two products, timestamps 100 and 101). -/
theorem website_catalogue_spec_witness :
    ((updateCatalogue [] "mug-1" (PartialProduct.mk none none none)).map
        CatEntry.id).count "mug-1" = 1 ∧
    generateId "Mug" 100 ∈
      (websiteCreateCatalogue (websiteCreateCatalogue []
        (Product.mk "Mug" "Nice" (some 10) (some 2) none none) 100).1
        (Product.mk "Cup" "Blue" (some 5) (some 1) none none) 101).1.map CatEntry.id ∧
    generateId "Mug" 100 ≠ generateId "Cup" 101 :=
  ⟨(website_catalogue_spec.1 [] "mug-1" (PartialProduct.mk none none none)
      (by simp)).2,
   (website_catalogue_spec.2.2 []
      (Product.mk "Mug" "Nice" (some 10) (some 2) none none)
      (Product.mk "Cup" "Blue" (some 5) (some 1) none none) 100 101
      (by decide) (by simp)).2.1,
   website_catalogue_spec.2.1 "Mug" "Cup" 100 101 (by decide)⟩

/-- Etsy credential block of the configuration (config/index.ts). -/
structure EtsyConfig where
  apiKey : String
  token : String
  shopId : String
deriving DecidableEq

/-- Printful block; the API key env var may be undefined. -/
structure PrintfulConfig where
  apiKey : Option String
deriving DecidableEq

/-- Process-wide configuration assembled from environment variables. -/
structure Config where
  etsy : EtsyConfig
  printful : PrintfulConfig
deriving DecidableEq

/-- Embedding of `validateConfig` (config/index.ts): the names of the
required Etsy variables that are empty; the function throws iff this list is
non-empty. -/
def missingConfigFields (c : Config) : List String :=
  (if c.etsy.apiKey = "" then ["ETSY_API_KEY"] else [])
  ++ (if c.etsy.token = "" then ["ETSY_TOKEN"] else [])
  ++ (if c.etsy.shopId = "" then ["ETSY_SHOP_ID"] else [])

/-- JS truthiness of a possibly-undefined string: false for undefined and
for the empty string. -/
def strOptTruthy : Option String → Bool
  | none => false
  | some s => !s.isEmpty

/-- A constructed PrintfulService (it keeps its configuration; the Axios
client carries no state the claims touch). -/
structure PrintfulService where
  config : Config
deriving DecidableEq

/-- Embedding of the PrintfulService constructor: it throws when
`!config.printful.apiKey` (missing or empty key), otherwise constructs. -/
def mkPrintfulService (c : Config) : Except String PrintfulService :=
  if strOptTruthy c.printful.apiKey then Except.ok { config := c }
  else Except.error "Printful API key is required for Printful integration"

/-- Embedding of `PrintfulService.isConfigured`: `!!config.printful.apiKey`. -/
def printfulIsConfigured (s : PrintfulService) : Bool :=
  strOptTruthy s.config.printful.apiKey

/-- C10: every successfully constructed PrintfulService reports
isConfigured = true, because the constructor throws exactly when the key is
missing or empty; the false branch of isConfigured is unreachable on
constructed instances. -/
theorem printful_constructed_isConfigured :
    ∀ (c : Config) (s : PrintfulService),
      mkPrintfulService c = Except.ok s → printfulIsConfigured s = true := by
  intro c s h
  unfold mkPrintfulService at h
  by_cases ht : strOptTruthy c.printful.apiKey = true
  · rw [if_pos ht] at h
    cases h
    exact ht
  · rw [if_neg ht] at h
    cases h

/-- C10 witness: a concrete configuration with a non-empty key constructs,
and the constructed instance is configured. -/
theorem printful_constructed_isConfigured_witness :
    printfulIsConfigured
      (PrintfulService.mk (Config.mk (EtsyConfig.mk "" "" "")
        (PrintfulConfig.mk (some "key")))) = true :=
  printful_constructed_isConfigured
    (Config.mk (EtsyConfig.mk "" "" "") (PrintfulConfig.mk (some "key"))) _ rfl

/-- One item of Printful's store-products responses as the service reads it
(`id`, `name`, `retail_price`, `thumbnail_url`). -/
structure PrintfulItem where
  id : Nat
  name : String
  retail_price : ℚ
  thumbnail_url : Option String
deriving DecidableEq

/-- Provider-product record (models `PrintfulProduct` in models/Product.ts,
the fields the service populates). -/
structure PrintfulProduct where
  syncVariantId : Option Nat
  name : String
  price : ℚ
  image : Option String
deriving DecidableEq

/-- Field mapping applied to each response item. -/
def toPrintfulProduct (item : PrintfulItem) : PrintfulProduct :=
  { syncVariantId := some item.id, name := item.name, price := item.retail_price,
    image := item.thumbnail_url }

/-- Embedding of `PrintfulService.getSyncVariants`: the GET is an oracle; a
success maps each result item; any failure is caught, a console.error line
is emitted (first component), and the empty list returned. -/
def getSyncVariants (net : Except JsError (List PrintfulItem)) :
    List String × List PrintfulProduct :=
  match net with
  | .ok items => ([], items.map toPrintfulProduct)
  | .error _ => (["Error fetching Printful products:"], [])

/-- Embedding of `PrintfulService.getProductInfo`: a failure is caught,
logged, and `null` (none) returned. -/
def getProductInfo (syncVariantId : Nat) (net : Except JsError PrintfulItem) :
    List String × Option PrintfulProduct :=
  match net with
  | .ok item => ([], some (toPrintfulProduct item))
  | .error _ =>
    (["Error fetching Printful product " ++ natDec syncVariantId ++ ":"], none)

/-- C9: on any transport failure neither Printful call propagates the error:
the collection call logs and returns the empty list and the single-item call
logs and returns an absent result. -/
theorem printful_degrade_on_failure :
    ∀ (e : JsError) (sid : Nat),
      (getSyncVariants (Except.error e)).2 = [] ∧
      (getSyncVariants (Except.error e)).1 ≠ [] ∧
      (getProductInfo sid (Except.error e)).2 = none ∧
      (getProductInfo sid (Except.error e)).1 ≠ [] := by
  intro e sid
  exact ⟨rfl, by simp [getSyncVariants], rfl, by simp [getProductInfo]⟩

/-- CLI options of the src `add-product` command (commands/addProduct.ts,
dry-run variant). -/
structure AddProductOptions where
  dryRun : Bool
  verbose : Bool
  title : String
  description : String
  price : Option ℚ
  quantity : Option ℤ
  tags : Option (List String)
  materials : Option (List String)
  images : Option (List String)
deriving DecidableEq

/-- The ProductInput the handler builds from its options. -/
def inputOfOptions (o : AddProductOptions) : ProductInput :=
  { title := o.title, description := o.description, price := o.price,
    quantity := o.quantity, tags := o.tags, materials := o.materials,
    images := o.images }

/-- The network/file effects `handleAddProduct` can perform: the Etsy
createListing POST and the uploadImages POSTs; everything else the handler
does is console output. -/
inductive AddEffect where
  | createListing
  | uploadImages
deriving DecidableEq

/-- Embedding of `handleAddProduct` (commands/addProduct.ts): validation
errors exit 1 before anything else; in dry-run mode the handler reports
configuration presence (console only) and returns before any API call; in
live mode validateConfig throws (caught by the action wrapper, exit 1) when
required variables are missing, then createListing runs, and on success with
images present and a listing id uploadImages runs; an image-upload failure
only warns (exit stays 0); a createListing failure exits 1. The pair is
(effects performed, exit code); the creation result comes from the oracle. -/
def handleAddProduct (o : AddProductOptions) (cfg : Config)
    (createRes : ProductOperationResult) : List AddEffect × Nat :=
  if (validateProductInput (inputOfOptions o)).length > 0 then ([], 1)
  else if o.dryRun then ([], 0)
  else if (missingConfigFields cfg).length > 0 then ([], 1)
  else if createRes.success then
    match o.images, createRes.listingId with
    | some (u :: us), some lid => ([AddEffect.createListing, AddEffect.uploadImages], 0)
    | _, _ => ([AddEffect.createListing], 0)
  else ([AddEffect.createListing], 1)

/-- C2: with --dry-run set and validation passing, the handler performs no
network call and no file write (createListing and uploadImages never run)
and exits with code 0. -/
theorem dry_run_no_effects (o : AddProductOptions) (cfg : Config)
    (createRes : ProductOperationResult) :
    o.dryRun = true → validateProductInput (inputOfOptions o) = [] →
    handleAddProduct o cfg createRes = ([], 0) := by
  intro hd hv
  unfold handleAddProduct
  rw [hv]
  simp [hd]

/-- C2 witness: a valid concrete input in dry-run mode, with an arbitrary
concrete creation result, performs no effect and exits 0. -/
theorem dry_run_no_effects_witness :
    handleAddProduct
      (AddProductOptions.mk true false "Mug" "Nice" (some 10) (some 2) none none none)
      (Config.mk (EtsyConfig.mk "" "" "") (PrintfulConfig.mk none))
      (ProductOperationResult.mk false none "x" none) = ([], 0) :=
  dry_run_no_effects _ _ _ rfl (by decide)

/-- CLI options of the channel-dispatching `add-product` described by the
spec (with the channel flag). -/
structure ChannelAddOptions where
  channel : String
  dryRun : Bool
  title : String
  description : String
  price : Option ℚ
  quantity : Option ℤ
  tags : Option (List String)
  materials : Option (List String)
  images : Option (List String)
deriving DecidableEq

def channelInputOf (o : ChannelAddOptions) : ProductInput :=
  { title := o.title, description := o.description, price := o.price,
    quantity := o.quantity, tags := o.tags, materials := o.materials,
    images := o.images }

/-- Channel work performed by the dispatching command, tagged with the name
of the channel whose implementation is invoked. -/
inductive ChannelEffect where
  | configCheck (channel : String)
  | createListing (channel : String)
  | uploadImages (channel : String)
deriving DecidableEq

/-- Modelled from the spec: the channel-dispatching `add-product` handler is
not among the provided sources (only the Etsy-only variants are; the README,
the hint printed by validate-product and the channel exports reference it). Per §4.4 of
the spec it "builds a ProductInput, rejects unknown channel names, runs
validation (exits non-zero on failure), and — unless running in dry-run
mode — checks the selected channel's required configuration ... before
invoking createListing"; on success with image URLs it invokes uploadImages.
Channel validation is the real `isValidChannel` of utils/validation.ts. The
result is (channel work performed, exit code). -/
def channelAddProduct (o : ChannelAddOptions) (configOk : String → Bool)
    (createRes : ProductOperationResult) : List ChannelEffect × Nat :=
  if ¬ isValidChannel o.channel then ([], 1)
  else if (validateProductInput (channelInputOf o)).length > 0 then ([], 1)
  else if o.dryRun then ([], 0)
  else if ¬ configOk o.channel then ([ChannelEffect.configCheck o.channel], 1)
  else if createRes.success then
    match o.images, createRes.listingId with
    | some (u :: us), some lid =>
      ([ChannelEffect.configCheck o.channel, ChannelEffect.createListing o.channel,
        ChannelEffect.uploadImages o.channel], 0)
    | _, _ =>
      ([ChannelEffect.configCheck o.channel, ChannelEffect.createListing o.channel], 0)
  else ([ChannelEffect.configCheck o.channel, ChannelEffect.createListing o.channel], 1)

/-- Name of the channel an effect acts on. -/
def ChannelEffect.channelOf : ChannelEffect → String
  | .configCheck ch => ch
  | .createListing ch => ch
  | .uploadImages ch => ch

/-- C1: an invocation naming an unsupported channel exits non-zero with no
channel work performed at all, and every channel effect of any invocation is
for a channel in the supported set. -/
theorem channel_rejection_spec :
    (∀ (o : ChannelAddOptions) (configOk : String → Bool)
       (createRes : ProductOperationResult),
      isValidChannel o.channel = false →
        (channelAddProduct o configOk createRes).1 = [] ∧
        (channelAddProduct o configOk createRes).2 ≠ 0) ∧
    (∀ (o : ChannelAddOptions) (configOk : String → Bool)
       (createRes : ProductOperationResult) (eff : ChannelEffect),
      eff ∈ (channelAddProduct o configOk createRes).1 →
        eff.channelOf ∈ SUPPORTED_CHANNELS) := by
  constructor
  · intro o configOk createRes h
    simp [channelAddProduct, h]
  · intro o configOk createRes eff heff
    by_cases hv : isValidChannel o.channel = true
    · have hmem : o.channel ∈ SUPPORTED_CHANNELS := by
        rw [isValidChannel] at hv
        exact List.elem_iff.mp hv
      have hall : ((channelAddProduct o configOk createRes).1.all
          (fun e => e.channelOf = o.channel)) = true := by
        unfold channelAddProduct
        rcases o.images with _ | ⟨_ | ⟨u, us⟩⟩ <;>
          rcases createRes.listingId with _ | lid <;>
          split_ifs <;> simp [ChannelEffect.channelOf]
      have hch : eff.channelOf = o.channel :=
        of_decide_eq_true (List.all_eq_true.mp hall eff heff)
      rw [hch]
      exact hmem
    · have hv2 : isValidChannel o.channel = false := by
        cases hb : isValidChannel o.channel
        · rfl
        · exact absurd hb hv
      simp [channelAddProduct, hv2] at heff

/-- C1 witness: the unsupported channel name "shopify" is rejected with no
channel work and a non-zero exit. -/
theorem channel_rejection_spec_witness :
    (channelAddProduct
      (ChannelAddOptions.mk "shopify" false "Mug" "Nice" (some 10) (some 2) none none none)
      (fun _ => true) (ProductOperationResult.mk true (some "1") "ok" none)).1 = [] ∧
    (channelAddProduct
      (ChannelAddOptions.mk "shopify" false "Mug" "Nice" (some 10) (some 2) none none none)
      (fun _ => true) (ProductOperationResult.mk true (some "1") "ok" none)).2 ≠ 0 :=
  channel_rejection_spec.1 _ _ _ (by decide)
